/-
Verification of the v3d GPU driver core (drivers/gpu/drm/v3d/v3d_drv.h and
its specification): queue/job/fence state machine, performance monitors,
per-process accounting, and the jiffies timeout helper.

Shallow embedding conventions:
  * machine integers (u32/u64/unsigned long) are Nat, with an explicit
    `% 2 ^ 64` exactly where the C computation can wrap;
  * pointers that track "the one current X" (`struct v3d_job *bin_job`,
    `struct v3d_perfmon *active_perfmon`, fences) are `Option` of an id;
  * the C structs keep their field names where Lean allows it.
-/
import Mathlib

set_option linter.unusedVariables false

namespace V3d

/-! ## Queues

`enum v3d_queue` (uapi/drm/v3d_drm.h, values 0..4 in declaration order:
V3D_BIN, V3D_RENDER, V3D_TFU, V3D_CSD, V3D_CACHE_CLEAN) and
`V3D_MAX_QUEUES = V3D_CACHE_CLEAN + 1`. -/

inductive v3d_queue where
  | V3D_BIN
  | V3D_RENDER
  | V3D_TFU
  | V3D_CSD
  | V3D_CACHE_CLEAN
  deriving DecidableEq, Repr

/-- The integer value of the C enum constant (C enums number from 0). -/
def v3d_queue.toNat : v3d_queue → Nat
  | .V3D_BIN => 0
  | .V3D_RENDER => 1
  | .V3D_TFU => 2
  | .V3D_CSD => 3
  | .V3D_CACHE_CLEAN => 4

def V3D_MAX_QUEUES : Nat := v3d_queue.V3D_CACHE_CLEAN.toNat + 1

/-- `v3d_queue_to_string` (v3d_drv.h:26-37).  The C parameter has enum type
but, as a C enum, can hold any integer value; the switch covers the five
enumerators and falls through to `return "UNKNOWN"` for anything else.  We
therefore embed it over the underlying integer. -/
def v3d_queue_to_string (queue : Nat) : String :=
  match queue with
  | 0 => "v3d_bin"
  | 1 => "v3d_render"
  | 2 => "v3d_tfu"
  | 3 => "v3d_csd"
  | 4 => "v3d_cache_clean"
  | _ => "UNKNOWN"

/-! ## Hardware generations -/

/-- `enum v3d_gen` (v3d_drv.h:118-123); the constants carry their C values. -/
inductive v3d_gen where
  | V3D_GEN_33
  | V3D_GEN_41
  | V3D_GEN_42
  | V3D_GEN_71
  deriving DecidableEq, Repr

def v3d_gen.val : v3d_gen → Nat
  | .V3D_GEN_33 => 33
  | .V3D_GEN_41 => 41
  | .V3D_GEN_42 => 42
  | .V3D_GEN_71 => 71

/-- The `ver` field of `struct v3d_dev` (v3d_drv.h:131) together with the
per-queue-type active-job pointers and the per-queue scheduler state: only
the fields the verified claims touch are embedded.  Each of
`bin_job`/`render_job`/`tfu_job`/`csd_job` is a single pointer in the C
struct (v3d_drv.h:172-175), hence an `Option` of a job id here, and
`active_perfmon` (v3d_drv.h:185) likewise. -/
structure v3d_dev where
  ver : v3d_gen
  bin_job : Option Nat := none
  render_job : Option Nat := none
  tfu_job : Option Nat := none
  csd_job : Option Nat := none
  active_perfmon : Option Nat := none
  deriving DecidableEq, Repr

/-- `v3d_has_csd` (v3d_drv.h:221-225): `return v3d->ver >= V3D_GEN_41;`. -/
def v3d_has_csd (v3d : v3d_dev) : Bool :=
  v3d_gen.V3D_GEN_41.val ≤ v3d.ver.val

/-! ## Per-queue fence/slot state machine

`struct v3d_queue_state` (v3d_drv.h:39-44) holds the per-queue
`emit_seqno`.  The operations on it live in v3d_fence.c / v3d_sched.c /
v3d_irq.c, which are not part of the sources here; hence the transition
functions below are modelled from the spec (see each doc comment).  The
`active` slot stands for the per-queue-type job pointer of `v3d_dev`, and
`finished_seqno` for the queue's last-completed sequence number advanced by
interrupt handling. -/

structure v3d_queue_state where
  active : Option Nat := none
  emit_seqno : Nat := 0
  finished_seqno : Nat := 0
  deriving DecidableEq, Repr

/-- The jobs occupying a queue's Active slot (zero or one, as the slot is a
single pointer). -/
def activeJobs (s : v3d_queue_state) : List Nat := s.active.toList

/-- Modelled from the spec: `issue_to_hardware` (v3d_sched.c run_job paths,
not in the sources).  Creates the job's fence by assigning the next
sequence number for the queue (`++queue->emit_seqno` under `sched_lock`)
and installs the job in the queue's Active slot.  Issuing while the slot is
occupied is a programming-contract violation the coordinator never
performs, so it is rejected: no state change and no fence.  Returns the new
state and the assigned fence seqno, if any. -/
def qIssue (s : v3d_queue_state) (jid : Nat) : v3d_queue_state × Option Nat :=
  match s.active with
  | none =>
      ({ s with active := some jid, emit_seqno := s.emit_seqno + 1 },
       some (s.emit_seqno + 1))
  | some _ => (s, none)

/-- Modelled from the spec: `on_hardware_complete` (v3d_irq.c interrupt
handler, not in the sources).  Advances the queue's last-completed counter
to the completed job's sequence number (the single in-flight job's, i.e.
the current `emit_seqno`) and empties the Active slot.  A completion with
no active job changes nothing. -/
def qComplete (s : v3d_queue_state) : v3d_queue_state :=
  match s.active with
  | some _ => { s with active := none, finished_seqno := s.emit_seqno }
  | none => s

/-- A fence (`struct v3d_fence`, v3d_drv.h:258-264) is signaled iff the
queue's last-completed sequence number is ≥ its own seqno. -/
def fenceSignaled (s : v3d_queue_state) (seqno : Nat) : Bool :=
  seqno ≤ s.finished_seqno

inductive QEvent where
  | issue (jid : Nat)
  | complete
  deriving DecidableEq, Repr

def qApply (s : v3d_queue_state) : QEvent → v3d_queue_state
  | .issue jid => (qIssue s jid).1
  | .complete => qComplete s

/-- Run a queue through a list of events, collecting the fence seqnos
assigned to successfully issued jobs, in issue order. -/
def runQ (s : v3d_queue_state) : List QEvent → v3d_queue_state × List Nat
  | [] => (s, [])
  | .issue jid :: es =>
      let p := qIssue s jid
      let r := runQ p.1 es
      (r.1, p.2.toList ++ r.2)
  | .complete :: es => runQ (qComplete s) es

def initQ : v3d_queue_state := {}

/-! ## Device-level job slots (one independent slot per queue) -/

/-- The per-queue state of the whole device: the `queue[V3D_MAX_QUEUES]`
array of `struct v3d_dev` (v3d_drv.h:177) with the queue-type-indexed
active-job pointers (v3d_drv.h:172-175) folded into each entry. -/
structure DevQueues where
  queue : v3d_queue → v3d_queue_state

def initDev : DevQueues := ⟨fun _ => initQ⟩

/-- Modelled from the spec: a submission/completion event touches exactly
its own queue's slot and counters; the other queues' state is untouched. -/
def devStep (d : DevQueues) (q : v3d_queue) (e : QEvent) : DevQueues :=
  ⟨fun q' => if q' = q then qApply (d.queue q) e else d.queue q'⟩

def runDev (d : DevQueues) : List (v3d_queue × QEvent) → DevQueues
  | [] => d
  | (q, e) :: es => runDev (devStep d q e) es

/-! ## Performance monitors

`struct v3d_perfmon` (v3d_drv.h:90-116).  The operations live in
v3d_perfmon.c, which is not among the sources, so they are modelled from
the spec (§4.5 and the struct's own comments). -/

/-- `DRM_V3D_MAX_PERF_COUNTERS` (uapi/drm/v3d_drm.h). -/
def DRM_V3D_MAX_PERF_COUNTERS : Nat := 32

structure v3d_perfmon where
  refcnt : Nat
  ncounters : Nat
  counters : List Nat
  values : List Nat
  deriving DecidableEq, Repr

/-- Modelled from the spec: `create(counter_ids)` (v3d_perfmon_create_ioctl
in v3d_perfmon.c, not in the sources) builds a monitor with reference count
1, the chosen counter ids and zero-initialised accumulators
(`kzalloc`-style). -/
def v3d_perfmon_create (ids : List Nat) : v3d_perfmon :=
  { refcnt := 1, ncounters := ids.length, counters := ids,
    values := List.replicate ids.length 0 }

/-- Modelled from the spec: `read(monitor)` (v3d_perfmon_get_values_ioctl,
not in the sources) returns the persisted accumulated values without side
effects. -/
def v3d_perfmon_read (p : v3d_perfmon) : List Nat := p.values

/-- Add the hardware deltas of one job window into the accumulators,
pointwise; positions with no delta are unchanged. -/
def accumValues : List Nat → List Nat → List Nat
  | [], _ => []
  | vs, [] => vs
  | v :: vs, d :: ds => (v + d) :: accumValues vs ds

/-- Modelled from the spec: `stop(monitor, accumulate=true)`
(v3d_perfmon_stop with capture, not in the sources) adds the hardware
delta observed since `start` into the monitor's persisted values. -/
def v3d_perfmon_stop_capture (p : v3d_perfmon) (delta : List Nat) : v3d_perfmon :=
  { p with values := accumValues p.values delta }

/-- A sequence of start/stop-with-capture cycles, each contributing its
observed hardware delta. -/
def runPerfmonCycles (p : v3d_perfmon) (deltas : List (List Nat)) : v3d_perfmon :=
  deltas.foldl v3d_perfmon_stop_capture p

/-- Modelled from the spec: `v3d_perfmon_start` (v3d_perfmon.c, not in the
sources) is callable only when no monitor is currently active device-wide;
it marks the monitor active in the device's single `active_perfmon` slot.
`none` means the call is refused. -/
def v3d_perfmon_start (active_perfmon : Option Nat) (pid : Nat) :
    Option (Option Nat) :=
  match active_perfmon with
  | none => some (some pid)
  | some _ => none

/-- Modelled from the spec: `v3d_perfmon_stop` clears the device's active
marker. -/
def v3d_perfmon_stop (active_perfmon : Option Nat) : Option Nat := none

inductive PerfEvent where
  | start (pid : Nat)
  | stop
  deriving DecidableEq, Repr

/-- One perfmon lifecycle event against the device's `active_perfmon`
slot; a refused `start` leaves the slot unchanged. -/
def perfApply (a : Option Nat) : PerfEvent → Option Nat
  | .start pid => (v3d_perfmon_start a pid).getD a
  | .stop => v3d_perfmon_stop a

def runPerf (a : Option Nat) : List PerfEvent → Option Nat
  | [] => a
  | e :: es => runPerf (perfApply a e) es

/-- The monitors attached to hardware: contents of the single
`active_perfmon` pointer (v3d_drv.h:185). -/
def activeMonitors (a : Option Nat) : List Nat := a.toList

/-! ## Jobs

`struct v3d_job` (v3d_drv.h:293-326).  Fences are identified by their
sequence numbers; the two fence pointers of the struct are the `Option`
fields below. -/

structure v3d_job where
  refcount : Nat
  bo_count : Nat
  /-- v3d fence to be signaled by IRQ handler when the job is complete
  (v3d_drv.h:307). -/
  irq_fence : Option Nat
  /-- scheduler fence for when the job is considered complete and the BO
  reservations can be released (v3d_drv.h:312). -/
  done_fence : Option Nat
  perfmon : Option Nat
  client_pid : Nat
  deriving DecidableEq, Repr

/-- The fence slots a job carries: exactly the two fence-typed fields of
`struct v3d_job`. -/
def v3d_job_fences (j : v3d_job) : List (Option Nat) :=
  [j.irq_fence, j.done_fence]

/-- Lifecycle view of one job: the job record plus the signal state of its
two fences and whether its BO reservations have been dropped. -/
structure JobRun where
  job : v3d_job
  irq_signaled : Bool := false
  done_signaled : Bool := false
  bos_released : Bool := false
  deriving DecidableEq, Repr

/-- Modelled from the spec: `issue_to_hardware` (v3d_sched.c, not in the
sources) creates the internal device-done fence at issue time and stores it
in the job's `irq_fence`. -/
def jobIssue (jr : JobRun) (seqno : Nat) : JobRun :=
  { jr with job := { jr.job with irq_fence := some seqno } }

/-- Modelled from the spec: the interrupt handler (v3d_irq.c, not in the
sources) signals the job's internal `irq_fence` on hardware completion; a
job that was never issued has no fence to signal. -/
def jobIrqComplete (jr : JobRun) : JobRun :=
  match jr.job.irq_fence with
  | some _ => { jr with irq_signaled := true }
  | none => jr

/-- Modelled from the spec: releasing the job's BO reservations is allowed
only once the caller-visible completion fence (`done_fence`) has signaled;
before that the call is refused. -/
def jobReleaseBos (jr : JobRun) : Option JobRun :=
  if jr.done_signaled then some { jr with bos_released := true } else none

/-! ## Job reference counting

`v3d_job_put` (declared v3d_drv.h:467, body in v3d_gem.c, not in the
sources): a kref drop.  Modelled from the spec: `release` decrements the
reference count and, exactly when it reaches zero, runs the job's
registered cleanup callback and frees the job. -/

inductive JobMem where
  /-- The job is allocated and holds `refcount` references. -/
  | alive (refcount : Nat)
  /-- The job's cleanup callback ran and its memory was freed. -/
  | freed
  deriving DecidableEq, Repr

/-- Modelled from the spec: one `v3d_job_put`.  Returns the new memory
state and whether this call freed the job (invoked the cleanup callback).
A put on refcount 0 or on freed memory is a kref usage error that cannot
occur along valid traces; it is embedded as a no-op so the function stays
total. -/
def v3d_job_put : JobMem → JobMem × Bool
  | .alive (n + 2) => (.alive (n + 1), false)
  | .alive 1 => (.freed, true)
  | .alive 0 => (.alive 0, false)
  | .freed => (.freed, false)

/-- `k` successive puts; the second component counts how many of them freed
the job (invocations of the cleanup callback). -/
def runPuts (m : JobMem) : Nat → JobMem × Nat
  | 0 => (m, 0)
  | k + 1 =>
      let p := v3d_job_put m
      let r := runPuts p.1 k
      (r.1, (if p.2 then 1 else 0) + r.2)

/-! ## Per-process accounting

`struct v3d_queue_pid_stats` (v3d_drv.h:46-57) and `struct
v3d_queue_stats` (v3d_drv.h:59-72), with
`V3D_QUEUE_STATS_TIMEOUT = 70 * HZ` (v3d_drv.h:81).  `HZ` is a kernel
configuration constant; it stays a parameter `hz` here.  Times are in
jiffies.  The update code is `v3d_sched_stats_update` (v3d_sched.c, not in
the sources); its transitions are modelled from the spec and the struct
comments. -/

structure v3d_queue_pid_stats where
  runtime : Nat
  /-- Time in jiffies to purge the stats of this process; refreshed to
  `now + V3D_QUEUE_STATS_TIMEOUT` on every job from this process
  (v3d_drv.h:49-54). -/
  timeout_purge : Nat
  jobs_sent : Nat
  pid : Nat
  deriving DecidableEq, Repr

structure v3d_queue_stats where
  runtime : Nat := 0
  jobs_sent : Nat := 0
  /-- Time in jiffies to stop collecting gpu stats by process; pushed
  forward by every access to the gpu_pid_usage debugfs interface
  (v3d_drv.h:65-69). -/
  gpu_pid_stats_timeout : Nat := 0
  pid_stats_list : List v3d_queue_pid_stats := []
  deriving DecidableEq, Repr

def V3D_QUEUE_STATS_TIMEOUT (hz : Nat) : Nat := 70 * hz

/-- Modelled from the spec: an observation request (a read of the
gpu_pid_usage debugfs file, v3d_debugfs.c, not in the sources) extends the
queue's collection deadline by `V3D_QUEUE_STATS_TIMEOUT` from now. -/
def statsObserve (hz now : Nat) (s : v3d_queue_stats) : v3d_queue_stats :=
  { s with gpu_pid_stats_timeout := now + V3D_QUEUE_STATS_TIMEOUT hz }

/-- Modelled from the spec: look up the entry of process `pid` and add this
job's runtime, or create a fresh entry; either way the entry's purge
deadline is pushed to `now + V3D_QUEUE_STATS_TIMEOUT`. -/
def updatePidList (hz now pid rt : Nat) :
    List v3d_queue_pid_stats → List v3d_queue_pid_stats
  | [] => [{ runtime := rt, timeout_purge := now + V3D_QUEUE_STATS_TIMEOUT hz,
             jobs_sent := 1, pid := pid }]
  | e :: es =>
      if e.pid = pid then
        { e with runtime := e.runtime + rt, jobs_sent := e.jobs_sent + 1,
                 timeout_purge := now + V3D_QUEUE_STATS_TIMEOUT hz } :: es
      else
        e :: updatePidList hz now pid rt es

/-- Modelled from the spec: the lazy purge pass removes the entries whose
purge deadline has elapsed (`time_after(now, timeout_purge)`). -/
def purgePidList (now : Nat) (l : List v3d_queue_pid_stats) :
    List v3d_queue_pid_stats :=
  l.filter (fun e => decide (now ≤ e.timeout_purge))

/-- Modelled from the spec: `v3d_sched_stats_update` on hardware completion
of a job of process `pid` with runtime `rt` at time `now`.  The queue-wide
totals are always updated; the per-process table is touched only while the
collection deadline has not elapsed (`gpu_pid_stats_timeout` not in the
past), in which case the process entry is updated/created and expired
entries are purged. -/
def v3d_sched_stats_update (hz now pid rt : Nat) (s : v3d_queue_stats) :
    v3d_queue_stats :=
  let s' := { s with runtime := s.runtime + rt, jobs_sent := s.jobs_sent + 1 }
  if s.gpu_pid_stats_timeout < now then s'
  else { s' with
         pid_stats_list :=
           purgePidList now (updatePidList hz now pid rt s.pid_stats_list) }

/-- The accumulated runtime recorded for process `pid` (0 when the process
has no entry). -/
def pidRuntime (pid : Nat) (l : List v3d_queue_pid_stats) : Nat :=
  match l.find? (fun e => e.pid = pid) with
  | some e => e.runtime
  | none => 0

/-! ## Jiffies timeout helper

`nsecs_to_jiffies_timeout` (v3d_drv.h:423-431).  Its dependencies are
kernel definitions outside these sources and are embedded by their standard
definitions: `NSEC_PER_SEC = 10^9`; `MAX_JIFFY_OFFSET = (LONG_MAX >> 1) - 1`
on a 64-bit target; `nsecs_to_jiffies64` (kernel/time/time.c) with its
three `HZ`-dependent branches, whose u64 multiplications wrap mod `2^64`;
`div_u64` is plain division.  `HZ` stays a parameter `hz` (kernel configs
use 24..1024). -/

def NSEC_PER_SEC : Nat := 1000000000

/-- `((LONG_MAX >> 1) - 1)` with 64-bit `long`: `(2^63 - 1) >> 1 - 1`. -/
def MAX_JIFFY_OFFSET : Nat := 2 ^ 62 - 2

def U64_MOD : Nat := 2 ^ 64

/-- `nsecs_to_jiffies64` (kernel/time.c): three compile-time branches on
`HZ`; the multiplications `n * HZ` and `n * 9` are u64 and wrap. -/
def nsecs_to_jiffies64 (hz n : Nat) : Nat :=
  if NSEC_PER_SEC % hz = 0 then
    n / (NSEC_PER_SEC / hz)
  else if hz % 512 = 0 then
    (n * hz % U64_MOD / 512) / (NSEC_PER_SEC / 512)
  else
    (n * 9 % U64_MOD) / ((9 * NSEC_PER_SEC + hz / 2) / hz)

/-- `nsecs_to_jiffies_timeout` (v3d_drv.h:423-431): guard against the
overflow `nsecs_to_jiffies64` does not check for, then return
`min_t(u64, MAX_JIFFY_OFFSET, nsecs_to_jiffies64(n) + 1)` (the `+ 1` is
u64 arithmetic, hence the mod). -/
def nsecs_to_jiffies_timeout (hz n : Nat) : Nat :=
  if NSEC_PER_SEC % hz ≠ 0 ∧ MAX_JIFFY_OFFSET / hz ≤ n / NSEC_PER_SEC then
    MAX_JIFFY_OFFSET
  else
    min MAX_JIFFY_OFFSET ((nsecs_to_jiffies64 hz n + 1) % U64_MOD)

/-! ## Theorems -/

theorem activeJobs_length_le_one (s : v3d_queue_state) :
    (activeJobs s).length ≤ 1 := by
  unfold activeJobs
  cases s.active <;> simp

/-- C1: for every queue, at any instant at most one job occupies that
queue's Active slot (each slot is a single `Option`), and the device holds
one independent currently-active-job slot per queue type: an event on one
queue never changes another queue's slot or counters. -/
theorem active_slot_unique :
    (∀ (tr : List (v3d_queue × QEvent)) (q : v3d_queue),
        (activeJobs ((runDev initDev tr).queue q)).length ≤ 1) ∧
    (∀ (d : DevQueues) (q q' : v3d_queue) (e : QEvent), q' ≠ q →
        (devStep d q e).queue q' = d.queue q') := by
  constructor
  · intro tr q
    exact activeJobs_length_le_one _
  · intro d q q' e hne
    simp [devStep, hne]

theorem active_slot_unique_witness :
    (activeJobs ((runDev initDev [(v3d_queue.V3D_BIN, QEvent.issue 7)]).queue
        v3d_queue.V3D_BIN)).length ≤ 1 ∧
    (devStep initDev v3d_queue.V3D_BIN (QEvent.issue 7)).queue
        v3d_queue.V3D_RENDER = initDev.queue v3d_queue.V3D_RENDER :=
  ⟨active_slot_unique.1 [(v3d_queue.V3D_BIN, QEvent.issue 7)] v3d_queue.V3D_BIN,
   active_slot_unique.2 initDev v3d_queue.V3D_BIN v3d_queue.V3D_RENDER
     (QEvent.issue 7) (by decide)⟩

theorem qComplete_emit_seqno (s : v3d_queue_state) :
    (qComplete s).emit_seqno = s.emit_seqno := by
  unfold qComplete
  cases s.active <;> rfl

theorem runQ_seqnos (es : List QEvent) : ∀ s : v3d_queue_state,
    List.Pairwise (· < ·) (runQ s es).2 ∧
    ∀ x ∈ (runQ s es).2, s.emit_seqno < x := by
  induction es with
  | nil =>
    intro s
    constructor
    · simp [runQ]
    · simp [runQ]
  | cons e es ih =>
    intro s
    match e with
    | .complete =>
      have h := ih (qComplete s)
      have heq : runQ s (QEvent.complete :: es) = runQ (qComplete s) es := rfl
      rw [heq]
      refine ⟨h.1, fun x hx => ?_⟩
      rw [← qComplete_emit_seqno s]
      exact h.2 x hx
    | .issue jid =>
      cases ha : s.active with
      | some j =>
        have heq : runQ s (QEvent.issue jid :: es) = runQ s es := by
          simp [runQ, qIssue, ha]
        rw [heq]
        exact ih s
      | none =>
        have heq : (runQ s (QEvent.issue jid :: es)).2 =
            (s.emit_seqno + 1) ::
              (runQ { s with active := some jid,
                             emit_seqno := s.emit_seqno + 1 } es).2 := by
          simp [runQ, qIssue, ha]
        have h := ih { s with active := some jid,
                              emit_seqno := s.emit_seqno + 1 }
        constructor
        · rw [heq]
          refine List.pairwise_cons.mpr ⟨?_, h.1⟩
          intro a hamem
          exact h.2 a hamem
        · intro x hx
          rw [heq] at hx
          rcases List.mem_cons.mp hx with h1 | h2
          · omega
          · have hx' : s.emit_seqno + 1 < x := h.2 x h2
            omega

/-- C2: on a fixed queue, jobs issued earlier receive strictly smaller
fence sequence numbers, and a later job's fence is never observed signaled
while an earlier job's fence is unsignaled. -/
theorem fence_seqno_order (tr : List QEvent) (i j : Nat)
    (hij : i < j) (hj : j < (runQ initQ tr).2.length) :
    (runQ initQ tr).2.getD i 0 < (runQ initQ tr).2.getD j 0 ∧
    (fenceSignaled (runQ initQ tr).1 ((runQ initQ tr).2.getD j 0) = true →
     fenceSignaled (runQ initQ tr).1 ((runQ initQ tr).2.getD i 0) = true) := by
  have hp := (runQ_seqnos tr initQ).1
  have hi : i < (runQ initQ tr).2.length := lt_trans hij hj
  have hlt : (runQ initQ tr).2.getD i 0 < (runQ initQ tr).2.getD j 0 := by
    rw [List.getD_eq_getElem _ _ hi, List.getD_eq_getElem _ _ hj]
    have := List.pairwise_iff_get.mp hp ⟨i, hi⟩ ⟨j, hj⟩ hij
    simpa using this
  refine ⟨hlt, ?_⟩
  intro hs
  simp only [fenceSignaled, decide_eq_true_eq] at hs ⊢
  omega

theorem fence_seqno_order_witness :
    (runQ initQ [QEvent.issue 1, QEvent.complete, QEvent.issue 2]).2.getD 0 0 <
      (runQ initQ [QEvent.issue 1, QEvent.complete,
        QEvent.issue 2]).2.getD 1 0 ∧
    (fenceSignaled (runQ initQ [QEvent.issue 1, QEvent.complete,
        QEvent.issue 2]).1
        ((runQ initQ [QEvent.issue 1, QEvent.complete,
          QEvent.issue 2]).2.getD 1 0) = true →
     fenceSignaled (runQ initQ [QEvent.issue 1, QEvent.complete,
        QEvent.issue 2]).1
        ((runQ initQ [QEvent.issue 1, QEvent.complete,
          QEvent.issue 2]).2.getD 0 0) = true) :=
  fence_seqno_order [QEvent.issue 1, QEvent.complete, QEvent.issue 2] 0 1
    (by decide) (by decide)

/-- C8: `v3d_has_csd` returns true iff the device's hardware generation is
at least `V3D_GEN_41` (value 41); compute (CSD) queue support is gated on
that generation threshold. -/
theorem v3d_has_csd_iff_gen41 (v3d : v3d_dev) :
    v3d_has_csd v3d = true ↔ 41 ≤ v3d.ver.val := by
  simp [v3d_has_csd, v3d_gen.val]

theorem v3d_has_csd_witness :
    v3d_has_csd { ver := v3d_gen.V3D_GEN_42 } = true :=
  (v3d_has_csd_iff_gen41 { ver := v3d_gen.V3D_GEN_42 }).mpr (by decide)

/-- C9: `v3d_queue_to_string` is total: it maps the five enumerated queue
values to their names and every integer outside the enumeration to
`"UNKNOWN"` instead of failing. -/
theorem v3d_queue_to_string_total :
    v3d_queue_to_string v3d_queue.V3D_BIN.toNat = "v3d_bin" ∧
    v3d_queue_to_string v3d_queue.V3D_RENDER.toNat = "v3d_render" ∧
    v3d_queue_to_string v3d_queue.V3D_TFU.toNat = "v3d_tfu" ∧
    v3d_queue_to_string v3d_queue.V3D_CSD.toNat = "v3d_csd" ∧
    v3d_queue_to_string v3d_queue.V3D_CACHE_CLEAN.toNat = "v3d_cache_clean" ∧
    ∀ n : Nat, (∀ q : v3d_queue, q.toNat ≠ n) →
      v3d_queue_to_string n = "UNKNOWN" := by
  refine ⟨rfl, rfl, rfl, rfl, rfl, ?_⟩
  intro n h
  have h0 := h .V3D_BIN
  have h1 := h .V3D_RENDER
  have h2 := h .V3D_TFU
  have h3 := h .V3D_CSD
  have h4 := h .V3D_CACHE_CLEAN
  simp [v3d_queue.toNat] at h0 h1 h2 h3 h4
  obtain ⟨m, rfl⟩ : ∃ m, n = m + 5 := ⟨n - 5, by omega⟩
  rfl

theorem v3d_queue_to_string_witness :
    v3d_queue_to_string 0 = "v3d_bin" ∧ v3d_queue_to_string 9 = "UNKNOWN" :=
  ⟨v3d_queue_to_string_total.1,
   v3d_queue_to_string_total.2.2.2.2.2 9 (by intro q; cases q <;> decide)⟩

theorem activeMonitors_length_le_one (a : Option Nat) :
    (activeMonitors a).length ≤ 1 := by
  cases a <;> simp [activeMonitors]

/-- C3: at most one Performance Monitor is attached to hardware device-wide
at any time: `start` succeeds only when no monitor is active, and every
sequence of start/stop operations keeps the device's active-monitor count
at most one. -/
theorem single_active_perfmon :
    (∀ (a : Option Nat) (p : Nat) (a' : Option Nat),
        v3d_perfmon_start a p = some a' → a = none ∧ a' = some p) ∧
    (∀ tr : List PerfEvent,
        (activeMonitors (runPerf none tr)).length ≤ 1) := by
  constructor
  · intro a p a' hcall
    cases a with
    | none =>
      refine ⟨rfl, ?_⟩
      simpa [v3d_perfmon_start] using hcall.symm
    | some q => simp [v3d_perfmon_start] at hcall
  · intro tr
    exact activeMonitors_length_le_one _

theorem single_active_perfmon_witness :
    ((none : Option Nat) = none ∧ some 5 = some 5) ∧
    (activeMonitors (runPerf none
        [PerfEvent.start 5, PerfEvent.stop, PerfEvent.start 6])).length ≤ 1 :=
  ⟨single_active_perfmon.1 none 5 (some 5) rfl,
   single_active_perfmon.2 [PerfEvent.start 5, PerfEvent.stop,
     PerfEvent.start 6]⟩

theorem accumValues_length (vs ds : List Nat) :
    (accumValues vs ds).length = vs.length := by
  induction vs generalizing ds with
  | nil => simp [accumValues]
  | cons v vs ih =>
    cases ds with
    | nil => simp [accumValues]
    | cons d ds => simp [accumValues, ih]

theorem accumValues_getD (vs ds : List Nat) (i : Nat) :
    vs.getD i 0 ≤ (accumValues vs ds).getD i 0 := by
  induction vs generalizing ds i with
  | nil => simp [accumValues]
  | cons v vs ih =>
    cases ds with
    | nil => simp [accumValues]
    | cons d ds =>
      cases i with
      | zero => simp [accumValues]
      | succ i => simpa [accumValues] using ih ds i

theorem runPerfmonCycles_length (p : v3d_perfmon) (ds : List (List Nat)) :
    (runPerfmonCycles p ds).values.length = p.values.length := by
  induction ds generalizing p with
  | nil => rfl
  | cons d ds ih =>
    rw [show runPerfmonCycles p (d :: ds) =
        runPerfmonCycles (v3d_perfmon_stop_capture p d) ds from rfl]
    rw [ih (v3d_perfmon_stop_capture p d)]
    simp [v3d_perfmon_stop_capture, accumValues_length]

theorem runPerfmonCycles_getD (p : v3d_perfmon) (ds : List (List Nat))
    (i : Nat) :
    p.values.getD i 0 ≤ (runPerfmonCycles p ds).values.getD i 0 := by
  induction ds generalizing p with
  | nil => exact le_refl _
  | cons d ds ih =>
    calc p.values.getD i 0
        ≤ (v3d_perfmon_stop_capture p d).values.getD i 0 := by
          simpa [v3d_perfmon_stop_capture] using accumValues_getD p.values d i
      _ ≤ (runPerfmonCycles p (d :: ds)).values.getD i 0 :=
          ih (v3d_perfmon_stop_capture p d)

/-- C4: a Performance Monitor's accumulated counter values start all zero
right after `create` and are monotonically non-decreasing (never reset)
across any sequence of start/stop-with-capture cycles. -/
theorem perfmon_values_zero_init_monotone :
    (∀ ids : List Nat, v3d_perfmon_read (v3d_perfmon_create ids) =
        List.replicate ids.length 0) ∧
    (∀ (p : v3d_perfmon) (ds : List (List Nat)),
        (runPerfmonCycles p ds).values.length = p.values.length ∧
        ∀ i : Nat,
          p.values.getD i 0 ≤ (runPerfmonCycles p ds).values.getD i 0) :=
  ⟨fun ids => rfl,
   fun p ds => ⟨runPerfmonCycles_length p ds,
     fun i => runPerfmonCycles_getD p ds i⟩⟩

theorem perfmon_values_witness :
    v3d_perfmon_read (v3d_perfmon_create [3, 4]) = List.replicate 2 0 ∧
    (v3d_perfmon.mk 1 1 [3] [5]).values.getD 0 0 ≤
      (runPerfmonCycles (v3d_perfmon.mk 1 1 [3] [5]) [[2], [7]]).values.getD 0 0 :=
  ⟨perfmon_values_zero_init_monotone.1 [3, 4],
   (perfmon_values_zero_init_monotone.2 (v3d_perfmon.mk 1 1 [3] [5])
     [[2], [7]]).2 0⟩

/-- C6: a job carries exactly two fence slots — the internal device-done
fence (`irq_fence`), installed at issue time and signaled by the interrupt
handler on hardware completion, and the external caller-visible completion
fence (`done_fence`), before whose signaling the job's BO reservations are
never released. -/
theorem job_two_fences :
    (∀ j : v3d_job, v3d_job_fences j = [j.irq_fence, j.done_fence] ∧
        (v3d_job_fences j).length = 2) ∧
    (∀ (jr : JobRun) (seqno : Nat),
        (jobIssue jr seqno).job.irq_fence = some seqno) ∧
    (∀ jr : JobRun, jr.job.irq_fence ≠ none →
        (jobIrqComplete jr).irq_signaled = true) ∧
    (∀ jr jr' : JobRun, jobReleaseBos jr = some jr' →
        jr.done_signaled = true ∧ jr'.bos_released = true) := by
  refine ⟨fun j => ⟨rfl, rfl⟩, fun jr s => rfl, ?_, ?_⟩
  · intro jr hf
    unfold jobIrqComplete
    cases h : jr.job.irq_fence with
    | none => exact absurd h hf
    | some s => rfl
  · intro jr jr' hr
    unfold jobReleaseBos at hr
    cases hd : jr.done_signaled with
    | false => simp [hd] at hr
    | true =>
      rw [hd, if_pos rfl] at hr
      have hr' := Option.some.inj hr
      subst hr'
      exact ⟨rfl, rfl⟩

theorem job_two_fences_witness :
    (jobIssue (JobRun.mk (v3d_job.mk 1 0 none none none 0) false false false)
      4).job.irq_fence = some 4 ∧
    (JobRun.mk (v3d_job.mk 1 0 none none none 0) false true
      false).done_signaled = true :=
  ⟨job_two_fences.2.1
     (JobRun.mk (v3d_job.mk 1 0 none none none 0) false false false) 4,
   (job_two_fences.2.2.2
     (JobRun.mk (v3d_job.mk 1 0 none none none 0) false true false)
     (JobRun.mk (v3d_job.mk 1 0 none none none 0) false true true) rfl).1⟩

/-- C7: `v3d_job_put` on a reference count greater than 1 does not free the
job; across a run of puts the job is freed (and its cleanup callback
invoked) exactly once, precisely when the count reaches 0 — no double
free, no leak. -/
theorem job_put_free_exactly_once :
    (∀ m : Nat, 2 ≤ m →
        v3d_job_put (JobMem.alive m) = (JobMem.alive (m - 1), false)) ∧
    (∀ n k : Nat, 1 ≤ n → k < n →
        runPuts (JobMem.alive n) k = (JobMem.alive (n - k), 0)) ∧
    (∀ n : Nat, 1 ≤ n → runPuts (JobMem.alive n) n = (JobMem.freed, 1)) := by
  have h1 : ∀ m : Nat, 2 ≤ m →
      v3d_job_put (JobMem.alive m) = (JobMem.alive (m - 1), false) := by
    intro m hm
    obtain ⟨m', rfl⟩ : ∃ m', m = m' + 2 := ⟨m - 2, by omega⟩
    rfl
  have h2 : ∀ k n : Nat, 1 ≤ n → k < n →
      runPuts (JobMem.alive n) k = (JobMem.alive (n - k), 0) := by
    intro k
    induction k with
    | zero =>
      intro n hn hk
      simp [runPuts]
    | succ k ih =>
      intro n hn hk
      obtain ⟨n', rfl⟩ : ∃ n', n = n' + 2 := ⟨n - 2, by omega⟩
      have hrun : runPuts (JobMem.alive (n' + 2)) (k + 1) =
          ((runPuts (JobMem.alive (n' + 1)) k).1,
           0 + (runPuts (JobMem.alive (n' + 1)) k).2) := rfl
      have hrec := ih (n' + 1) (by omega) (by omega)
      have harith : n' + 2 - (k + 1) = n' + 1 - k := by omega
      rw [hrun, hrec, harith]
      rfl
  have h3 : ∀ n : Nat,
      runPuts (JobMem.alive (n + 1)) (n + 1) = (JobMem.freed, 1) := by
    intro n
    induction n with
    | zero => rfl
    | succ n ih =>
      have hrun : runPuts (JobMem.alive (n + 2)) (n + 2) =
          ((runPuts (JobMem.alive (n + 1)) (n + 1)).1,
           0 + (runPuts (JobMem.alive (n + 1)) (n + 1)).2) := rfl
      rw [hrun, ih]
      rfl
  refine ⟨h1, fun n k hn hk => h2 k n hn hk, fun n hn => ?_⟩
  obtain ⟨n', rfl⟩ : ∃ n', n = n' + 1 := ⟨n - 1, by omega⟩
  exact h3 n'

theorem job_put_witness :
    v3d_job_put (JobMem.alive 2) = (JobMem.alive 1, false) ∧
    runPuts (JobMem.alive 3) 2 = (JobMem.alive 1, 0) ∧
    runPuts (JobMem.alive 3) 3 = (JobMem.freed, 1) :=
  ⟨job_put_free_exactly_once.1 2 (by decide),
   job_put_free_exactly_once.2.1 3 2 (by decide) (by decide),
   job_put_free_exactly_once.2.2 3 (by decide)⟩

theorem pidRuntime_cons_ne (pid : Nat) (e : v3d_queue_pid_stats)
    (l : List v3d_queue_pid_stats) (h : e.pid ≠ pid) :
    pidRuntime pid (e :: l) = pidRuntime pid l := by
  simp [pidRuntime, List.find?_cons, h]

theorem purgePidList_cons (now : Nat) (e : v3d_queue_pid_stats)
    (l : List v3d_queue_pid_stats) :
    purgePidList now (e :: l) =
      if now ≤ e.timeout_purge then e :: purgePidList now l
      else purgePidList now l := by
  simp [purgePidList, List.filter_cons]

theorem mem_purgePidList (now : Nat) (l : List v3d_queue_pid_stats)
    (e : v3d_queue_pid_stats) (he : e ∈ purgePidList now l) :
    now ≤ e.timeout_purge := by
  have h := List.mem_filter.mp he
  simpa using h.2

theorem pidRuntime_purge_update (hz now pid rt : Nat) :
    ∀ l : List v3d_queue_pid_stats,
      pidRuntime pid (purgePidList now (updatePidList hz now pid rt l)) =
        pidRuntime pid l + rt := by
  intro l
  induction l with
  | nil =>
    have hkeep : now ≤ now + V3D_QUEUE_STATS_TIMEOUT hz := Nat.le_add_right _ _
    simp [updatePidList, purgePidList, List.filter, hkeep, pidRuntime,
      List.find?]
  | cons e es ih =>
    by_cases hpid : e.pid = pid
    · have hkeep : now ≤ now + V3D_QUEUE_STATS_TIMEOUT hz := Nat.le_add_right _ _
      simp [updatePidList, hpid, purgePidList, List.filter, hkeep, pidRuntime,
        List.find?]
    · have hupd : updatePidList hz now pid rt (e :: es) =
          e :: updatePidList hz now pid rt es := by
        simp [updatePidList, hpid]
      rw [hupd, purgePidList_cons, pidRuntime_cons_ne pid e es hpid]
      by_cases hkeepe : now ≤ e.timeout_purge
      · rw [if_pos hkeepe, pidRuntime_cons_ne pid e _ hpid, ih]
      · rw [if_neg hkeepe, ih]

/-- C5: per-process accounting for a queue is entirely suppressed (no
per-pid entries created or updated) when no observation request has
extended the queue's collection deadline past the current time; when the
deadline is extended, a completion adds its runtime to the (queue, pid)
entry (creating it at that runtime if absent), and no entry whose purge
deadline has elapsed without new activity survives the pass. -/
theorem stats_collection_gated (hz now pid rt : Nat) (s : v3d_queue_stats) :
    (s.gpu_pid_stats_timeout < now →
      (v3d_sched_stats_update hz now pid rt s).pid_stats_list =
        s.pid_stats_list) ∧
    (now ≤ s.gpu_pid_stats_timeout →
      pidRuntime pid
          (v3d_sched_stats_update hz now pid rt s).pid_stats_list =
        pidRuntime pid s.pid_stats_list + rt ∧
      ∀ e ∈ (v3d_sched_stats_update hz now pid rt s).pid_stats_list,
        now ≤ e.timeout_purge) := by
  constructor
  · intro hgate
    simp [v3d_sched_stats_update, hgate]
  · intro hact
    have hnot : ¬ s.gpu_pid_stats_timeout < now := by omega
    constructor
    · simp only [v3d_sched_stats_update, if_neg hnot]
      exact pidRuntime_purge_update hz now pid rt s.pid_stats_list
    · simp only [v3d_sched_stats_update, if_neg hnot]
      exact fun e he => mem_purgePidList now _ e he

theorem stats_collection_witness :
    (v3d_sched_stats_update 100 5 42 7
        (v3d_queue_stats.mk 0 0 2 [])).pid_stats_list = [] ∧
    (pidRuntime 42 (v3d_sched_stats_update 100 5 42 7
          (v3d_queue_stats.mk 0 0 9 [])).pid_stats_list =
        pidRuntime 42 [] + 7 ∧
      ∀ e ∈ (v3d_sched_stats_update 100 5 42 7
          (v3d_queue_stats.mk 0 0 9 [])).pid_stats_list,
        5 ≤ e.timeout_purge) :=
  ⟨(stats_collection_gated 100 5 42 7 (v3d_queue_stats.mk 0 0 2 [])).1
      (by decide),
   (stats_collection_gated 100 5 42 7 (v3d_queue_stats.mk 0 0 9 [])).2
      (by decide)⟩

theorem nsecs_to_jiffies64_le (hz n : Nat) (h1 : 0 < hz) (h2 : hz ≤ 1024)
    (hn : n < U64_MOD) : nsecs_to_jiffies64 hz n ≤ 2 ^ 63 - 1 := by
  have half : ∀ x : Nat, x < U64_MOD → x / 2 ≤ 2 ^ 63 - 1 := by
    intro x hx
    have hx' : x ≤ U64_MOD - 1 := by omega
    calc x / 2 ≤ (U64_MOD - 1) / 2 := Nat.div_le_div_right hx'
      _ = 2 ^ 63 - 1 := by norm_num [U64_MOD]
  unfold nsecs_to_jiffies64
  by_cases c1 : NSEC_PER_SEC % hz = 0
  · rw [if_pos c1]
    have hd : 2 ≤ NSEC_PER_SEC / hz := by
      rw [Nat.le_div_iff_mul_le h1]
      calc 2 * hz ≤ 2 * 1024 := by omega
        _ ≤ NSEC_PER_SEC := by norm_num [NSEC_PER_SEC]
    calc n / (NSEC_PER_SEC / hz) ≤ n / 2 :=
          Nat.div_le_div_left hd (by norm_num)
      _ ≤ 2 ^ 63 - 1 := half n hn
  · rw [if_neg c1]
    by_cases c2 : hz % 512 = 0
    · rw [if_pos c2]
      have hm : n * hz % U64_MOD < U64_MOD :=
        Nat.mod_lt _ (by norm_num [U64_MOD])
      calc n * hz % U64_MOD / 512 / (NSEC_PER_SEC / 512)
          ≤ n * hz % U64_MOD / 512 := Nat.div_le_self _ _
        _ ≤ n * hz % U64_MOD / 2 :=
          Nat.div_le_div_left (by norm_num) (by norm_num)
        _ ≤ 2 ^ 63 - 1 := half _ hm
    · rw [if_neg c2]
      have hm : n * 9 % U64_MOD < U64_MOD :=
        Nat.mod_lt _ (by norm_num [U64_MOD])
      have hd : 2 ≤ (9 * NSEC_PER_SEC + hz / 2) / hz := by
        rw [Nat.le_div_iff_mul_le h1]
        calc 2 * hz ≤ 2 * 1024 := by omega
          _ ≤ 9 * NSEC_PER_SEC := by norm_num [NSEC_PER_SEC]
          _ ≤ 9 * NSEC_PER_SEC + hz / 2 := Nat.le_add_right _ _
      calc n * 9 % U64_MOD / ((9 * NSEC_PER_SEC + hz / 2) / hz)
          ≤ n * 9 % U64_MOD / 2 := Nat.div_le_div_left hd (by norm_num)
        _ ≤ 2 ^ 63 - 1 := half _ hm

/-- C10: for every 64-bit nanosecond input, `nsecs_to_jiffies_timeout`
returns at least 1 and at most `MAX_JIFFY_OFFSET`; when the overflow guard
fires it returns exactly `MAX_JIFFY_OFFSET`, and otherwise it returns
`min MAX_JIFFY_OFFSET (nsecs_to_jiffies64 n + 1)` (the `+ 1` cannot wrap
for any configured `HZ ≤ 1024`). -/
theorem nsecs_to_jiffies_timeout_bounds (hz n : Nat) (h1 : 0 < hz)
    (h2 : hz ≤ 1024) (hn : n < U64_MOD) :
    1 ≤ nsecs_to_jiffies_timeout hz n ∧
    nsecs_to_jiffies_timeout hz n ≤ MAX_JIFFY_OFFSET ∧
    ((NSEC_PER_SEC % hz ≠ 0 ∧ MAX_JIFFY_OFFSET / hz ≤ n / NSEC_PER_SEC) →
      nsecs_to_jiffies_timeout hz n = MAX_JIFFY_OFFSET) ∧
    (¬(NSEC_PER_SEC % hz ≠ 0 ∧ MAX_JIFFY_OFFSET / hz ≤ n / NSEC_PER_SEC) →
      nsecs_to_jiffies_timeout hz n =
        min MAX_JIFFY_OFFSET (nsecs_to_jiffies64 hz n + 1)) := by
  have hle := nsecs_to_jiffies64_le hz n h1 h2 hn
  have hnowrap : (nsecs_to_jiffies64 hz n + 1) % U64_MOD =
      nsecs_to_jiffies64 hz n + 1 := by
    apply Nat.mod_eq_of_lt
    have hp : (2 : Nat) ^ 63 - 1 + 1 < U64_MOD := by norm_num [U64_MOD]
    omega
  by_cases c : NSEC_PER_SEC % hz ≠ 0 ∧ MAX_JIFFY_OFFSET / hz ≤ n / NSEC_PER_SEC
  · simp only [nsecs_to_jiffies_timeout, if_pos c]
    refine ⟨?_, le_refl _, fun _ => trivial, fun hc => absurd c hc⟩
    norm_num [MAX_JIFFY_OFFSET]
  · simp only [nsecs_to_jiffies_timeout, if_neg c, hnowrap]
    refine ⟨?_, min_le_left _ _, fun hc => absurd hc c, fun _ => trivial⟩
    refine le_min ?_ ?_
    · norm_num [MAX_JIFFY_OFFSET]
    · exact Nat.succ_le_succ (Nat.zero_le _)

theorem nsecs_to_jiffies_timeout_witness :
    1 ≤ nsecs_to_jiffies_timeout 300 (10 ^ 10) ∧
    nsecs_to_jiffies_timeout 300 (10 ^ 10) ≤ MAX_JIFFY_OFFSET ∧
    ((NSEC_PER_SEC % 300 ≠ 0 ∧
        MAX_JIFFY_OFFSET / 300 ≤ 10 ^ 10 / NSEC_PER_SEC) →
      nsecs_to_jiffies_timeout 300 (10 ^ 10) = MAX_JIFFY_OFFSET) ∧
    (¬(NSEC_PER_SEC % 300 ≠ 0 ∧
        MAX_JIFFY_OFFSET / 300 ≤ 10 ^ 10 / NSEC_PER_SEC) →
      nsecs_to_jiffies_timeout 300 (10 ^ 10) =
        min MAX_JIFFY_OFFSET (nsecs_to_jiffies64 300 (10 ^ 10) + 1)) :=
  nsecs_to_jiffies_timeout_bounds 300 (10 ^ 10) (by norm_num)
    (by norm_num) (by norm_num [U64_MOD])

end V3d
